import Mathlib

/-!
# MetaGenChord: the data-reduction pipeline of `src/app.js`

A shallow embedding of the chord-diagram pipeline of `app.js`:

* the dataset selection (`uniqueDatasets`), the record filter (`filteredData`),
  the labels (`labels`), the taxon columns (`taxonomicColumns`) and the
  aggregation (`aggregatedData`) computed in the `d3.csv(...).then` callback;
* `buildMatrix`, with its three nested `forEach` loops over a mutable matrix;
* the `mouseover` / `mouseout` handlers of `updateVisualization`, as
  transformers of an explicit ribbon-opacity state and as the tooltip content.

JavaScript numbers are modelled by `JSNum`: `NaN`, the two infinities and the
finite values. A finite value is carried as a rational; the values that occur
are binary64 values, because `parseFloat` and `+` round to the nearest binary64
value (ties to even, overflow to an infinity, underflow to the subnormal values
and to zero) through `JSNum.round64`. The two zeros are one value.
The builtins (`parseFloat`, `Set`, `Object.keys`, `Math.min`) follow ECMAScript
and `d3.sum` follows the d3-array library.
-/

set_option autoImplicit false

namespace MetaGenChord

/-! ## JavaScript values -/

/-- A JavaScript number: `NaN`, `-Infinity`, a finite value, `Infinity`. -/
inductive JSNum where
  | nan : JSNum
  | negInf : JSNum
  | fin (q : ℚ) : JSNum
  | posInf : JSNum
  deriving DecidableEq, Repr

namespace JSNum

/-- The number `0`. -/
def zero : JSNum := fin 0

instance : Zero JSNum := ⟨zero⟩

/-- The negation of a number. -/
def neg : JSNum → JSNum
  | nan => nan
  | negInf => posInf
  | fin q => fin (-q)
  | posInf => negInf

/-- The power `2 ^ e`, for an integer `e`. -/
def pow2 (e : ℤ) : ℚ := if 0 ≤ e then (2 : ℚ) ^ e.toNat else 1 / (2 : ℚ) ^ (-e).toNat

/-- The binary logarithm of `n`, rounded down, by at most `fuel` halvings. -/
def log2Fuel : ℕ → ℕ → ℕ
  | 0, _ => 0
  | fuel + 1, n => if n < 2 then 0 else log2Fuel fuel (n / 2) + 1

/-- The binary logarithm of a natural number, rounded down (`0` for `0`). -/
def natLog2 (n : ℕ) : ℕ := log2Fuel n n

/-- The binary logarithm of a rational `a > 0`, rounded down: the exponent `e`
with `2 ^ e ≤ a < 2 ^ (e + 1)`. -/
def floorLog2 (a : ℚ) : ℤ :=
  let e0 : ℤ := (natLog2 a.num.natAbs : ℤ) - (natLog2 a.den : ℤ)
  if pow2 e0 ≤ a then e0 else e0 - 1

/-- The integer nearest to a rational `x ≥ 0`, the even one of two that are
equally near. -/
def roundHalfEven (x : ℚ) : ℕ :=
  let f : ℕ := x.num.natAbs / x.den
  let r : ℚ := x - f
  if r < 1 / 2 then f else if 1 / 2 < r then f + 1 else if f % 2 = 0 then f else f + 1

/-- The binary64 value nearest to a rational `a > 0`: `a` is rounded to a
multiple of `2 ^ e`, where `e` leaves 53 significant bits and is not below the
exponent `-1074` of the subnormal values; a result of `2 ^ 1024` or more is
`Infinity`. -/
def roundMagnitude (a : ℚ) : JSNum :=
  let e := max (floorLog2 a - 52) (-1074)
  let v := (roundHalfEven (a / pow2 e) : ℚ) * pow2 e
  if v < (2 : ℚ) ^ 1024 then fin v else posInf

/-- The binary64 value of a rational: round to nearest, ties to even. -/
def round64 (q : ℚ) : JSNum :=
  if q = 0 then fin 0 else if 0 < q then roundMagnitude q else neg (roundMagnitude (-q))

/-- The operator `+` on numbers: the exact sum of two finite values, rounded to
binary64. A zero operand leaves the other one as it is (a binary64 value is its
own rounding). -/
def add : JSNum → JSNum → JSNum
  | nan, _ => nan
  | _, nan => nan
  | posInf, negInf => nan
  | negInf, posInf => nan
  | posInf, _ => posInf
  | _, posInf => posInf
  | negInf, _ => negInf
  | _, negInf => negInf
  | fin a, fin b => if b = 0 then fin a else if a = 0 then fin b else round64 (a + b)

instance : Add JSNum := ⟨add⟩

/-- Truthiness of a number (`ToBoolean`): `NaN` and `0` are falsy. -/
def truthy : JSNum → Bool
  | nan => false
  | fin q => decide (q ≠ 0)
  | _ => true

/-- The expression `x || 0` on a number `x`. -/
def orZero (x : JSNum) : JSNum := if x.truthy then x else fin 0

/-- The comparison `x > 0`. -/
def gtZero : JSNum → Bool
  | posInf => true
  | fin q => decide (0 < q)
  | _ => false

/-- The comparison `x >= 0`. -/
def geZero : JSNum → Bool
  | posInf => true
  | fin q => decide (0 ≤ q)
  | _ => false

/-- The function `Math.min` on two numbers. -/
def min : JSNum → JSNum → JSNum
  | nan, _ => nan
  | _, nan => nan
  | negInf, _ => negInf
  | _, negInf => negInf
  | posInf, y => y
  | x, posInf => x
  | fin a, fin b => fin (Min.min a b)

/-- The comparison `x == y` on numbers (`NaN` equals nothing). -/
def looseEq : JSNum → JSNum → Bool
  | nan, _ => false
  | _, nan => false
  | x, y => decide (x = y)

end JSNum

/-- The JavaScript values that occur in the pipeline: `undefined`, strings and
numbers. -/
inductive JSVal where
  | undefined : JSVal
  | str (s : String) : JSVal
  | num (x : JSNum) : JSVal
  deriving DecidableEq, Repr

/-- The value of a property read that gives a string or `undefined`. -/
def JSVal.ofOption : Option String → JSVal
  | none => JSVal.undefined
  | some s => JSVal.str s

/-! ## The builtin `parseFloat` -/

/-- White space and line terminators, which `parseFloat` skips at the start of
its input. -/
def isJSWhiteSpace (c : Char) : Bool :=
  decide (c.toNat ∈ [9, 10, 11, 12, 13, 32, 160, 0x1680, 0x2028, 0x2029, 0x202F, 0x205F,
    0x3000, 0xFEFF]) || (decide (0x2000 ≤ c.toNat) && decide (c.toNat ≤ 0x200A))

/-- The value of a run of decimal digits. -/
def digitsValue (ds : List Char) : ℕ :=
  ds.foldl (fun n c => 10 * n + (c.toNat - 48)) 0

/-- The value of the `ExponentPart` at the start of `cs`, and `0` when there is
none (an `e` that no digit follows is not part of the number). -/
def exponentPart (cs : List Char) : ℤ :=
  match cs with
  | [] => 0
  | c :: rest =>
    if c = 'e' ∨ c = 'E' then
      match rest with
      | '+' :: r => (digitsValue (r.takeWhile Char.isDigit) : ℤ)
      | '-' :: r => - (digitsValue (r.takeWhile Char.isDigit) : ℤ)
      | r => (digitsValue (r.takeWhile Char.isDigit) : ℤ)
    else 0

/-- The number `m * 10 ^ e`. -/
def scale10 (m : ℚ) (e : ℤ) : ℚ :=
  if 0 ≤ e then m * (10 : ℚ) ^ e.toNat else m / (10 : ℚ) ^ (-e).toNat

/-- The value of the longest prefix of `cs` that is a `StrUnsignedDecimalLiteral`
(`Infinity`, `digits[.digits][exponent]` or `.digits[exponent]`), negated when
`neg` and rounded to binary64; `NaN` when no prefix is one. -/
def strDecimalLiteral (neg : Bool) (cs : List Char) : JSNum :=
  if "Infinity".toList.isPrefixOf cs then
    (if neg then JSNum.negInf else JSNum.posInf)
  else
    let ip := cs.takeWhile Char.isDigit
    let r1 := cs.dropWhile Char.isDigit
    let fp := match r1 with
      | '.' :: r => r.takeWhile Char.isDigit
      | _ => []
    let r2 := match r1 with
      | '.' :: r => r.dropWhile Char.isDigit
      | _ => r1
    if ip = [] ∧ fp = [] then JSNum.nan
    else
      let m : ℚ := (digitsValue ip : ℚ) + (digitsValue fp : ℚ) / (10 : ℚ) ^ fp.length
      let v := scale10 m (exponentPart r2)
      JSNum.round64 (if neg then -v else v)

/-- The builtin `parseFloat` on a string. -/
def parseFloatStr (s : String) : JSNum :=
  match s.toList.dropWhile isJSWhiteSpace with
  | '+' :: r => strDecimalLiteral false r
  | '-' :: r => strDecimalLiteral true r
  | r => strDecimalLiteral false r

/-- The builtin `parseFloat`: the argument is converted to a string, which is
then parsed. `undefined` gives `NaN`; a number is written and read back, which
gives the number itself. -/
def parseFloat : JSVal → JSNum
  | JSVal.undefined => JSNum.nan
  | JSVal.str s => parseFloatStr s
  | JSVal.num x => x

/-! ## Records and the selection -/

/-- A row of the table read by `d3.csv`: an object whose property values are
all strings, as the list of its properties in insertion order. A name bound
twice denotes its first binding. -/
abbrev Record := List (String × String)

/-- The property read `d[k]` on a row: `none` is `undefined`. -/
def Record.get (d : Record) (k : String) : Option String := d.lookup k

/-- One step of filling a `Set`: a value already present is not added again. -/
def setAdd {α : Type} [DecidableEq α] (s : List α) (x : α) : List α :=
  if x ∈ s then s else s ++ [x]

/-- The expression `Array.from(new Set(xs))`: the values of `xs` in insertion
order, each once. -/
def newSet {α : Type} [DecidableEq α] (xs : List α) : List α :=
  xs.foldl setAdd []

/-- The array `uniqueDatasets`:
`Array.from(new Set(data.map(d => d.dataset_name))).slice(0, 10)`. -/
def uniqueDatasets (data : List Record) : List (Option String) :=
  (newSet (data.map (fun d => d.get "dataset_name"))).take 10

/-- The array `filteredData`:
`data.filter(d => uniqueDatasets.includes(d.dataset_name))`. -/
def filteredData (data : List Record) : List Record :=
  data.filter (fun d => decide (d.get "dataset_name" ∈ uniqueDatasets data))

/-! ## Labels -/

/-- The expression `v || dflt` on a string-or-undefined `v`: `undefined` and the
empty string are falsy. -/
def orElse (v : Option String) (dflt : String) : String :=
  match v with
  | none => dflt
  | some s => if s = "" then dflt else s

/-- A string-or-undefined value inside a template literal. -/
def templateStr : Option String → String
  | none => "undefined"
  | some s => s

/-- The label of one dataset, the body of the `map` callback that builds
`labels`. -/
def labelOf (filtered : List Record) (dataset : Option String) : String :=
  match filtered.find? (fun d => decide (d.get "dataset_name" = dataset)) with
  | some sample =>
    orElse (sample.get "dataset_name") "Unknown Dataset" ++ " | " ++
      orElse (sample.get "sampleID") "Unknown Sample" ++ " | " ++
      orElse (sample.get "country") "Unknown Country"
  | none => templateStr dataset ++ " | Unknown Sample | Unknown Country"

/-- The array `labels`. -/
def labels (data : List Record) : List String :=
  (uniqueDatasets data).map (labelOf (filteredData data))

/-! ## Aggregation -/

/-- The names of the properties of an object, `Object.keys`: each name once, in
insertion order. (Names that are array indices would come first; no name that
starts with `k__` is one.) -/
def objectKeys {β : Type} (o : List (String × β)) : List String :=
  newSet (o.map Prod.fst)

/-- The test `col.startsWith("k__")`. -/
def isTaxonColumn (col : String) : Bool := "k__".toList.isPrefixOf col.toList

/-- The array `taxonomicColumns`:
`Object.keys(filteredData[0]).filter(col => col.startsWith("k__"))`.
`Object.keys(undefined)` throws a `TypeError`. -/
def taxonomicColumns (filtered : List Record) : Except String (List String) :=
  match filtered[0]? with
  | none => Except.error "TypeError: Cannot convert undefined or null to object"
  | some first => Except.ok ((objectKeys first).filter isTaxonColumn)

/-- The function `d3.sum(values, valueof)` of d3-array,
`for (let value of values) if (value = +valueof(value)) sum += value`: the
values that are falsy (`0`, `NaN`) are skipped, the others are added up from `0`
in order. -/
def d3sum {α : Type} (values : List α) (valueof : α → JSNum) : JSNum :=
  values.foldl (fun sum value => if (valueof value).truthy then sum + valueof value else sum) 0

/-- An aggregated profile: the object `{ dataset_name: ..., k__...: number }`,
as the list of its properties in insertion order. -/
abbrev Profile := List (String × JSVal)

/-- The property read `o[k]` on a profile. -/
def Profile.get (o : Profile) (k : String) : JSVal := (o.lookup k).getD JSVal.undefined

/-- The assignment `o[k] = v`: an existing property keeps its place. -/
def setProp (o : Profile) (k : String) (v : JSVal) : Profile :=
  if o.any (fun p => p.1 == k) then o.map (fun p => if p.1 == k then (k, v) else p)
  else o ++ [(k, v)]

/-- The parsed value `parseFloat(row[col]) || 0` of a row at a column. -/
def rowValue (col : String) (row : Record) : JSNum :=
  (parseFloat (JSVal.ofOption (row.get col))).orZero

/-- The aggregated profile of one dataset, the body of the `map` callback that
builds `aggregatedData`. -/
def aggregateOf (filtered : List Record) (cols : List String) (dataset : Option String) :
    Profile :=
  let datasetRows := filtered.filter (fun d => decide (d.get "dataset_name" = dataset))
  cols.foldl
    (fun aggregated col => setProp aggregated col (JSVal.num (d3sum datasetRows (rowValue col))))
    [("dataset_name", JSVal.ofOption dataset)]

/-- The array `aggregatedData`. -/
def aggregatedData (data : List Record) (cols : List String) : List Profile :=
  (uniqueDatasets data).map (aggregateOf (filteredData data) cols)

/-! ## The relationship matrix -/

/-- A matrix, as the list of its rows. -/
abbrev Matrix := List (List JSNum)

/-- The update `matrix[i][j] += v`. -/
def addAt (matrix : Matrix) (i j : ℕ) (v : JSNum) : Matrix :=
  matrix.modify (fun row => row.modify (fun x => x + v) j) i

/-- The parsed value `parseFloat(o[col]) || 0` of a profile at a column. -/
def profileValue (o : Profile) (col : String) : JSNum :=
  (parseFloat (o.get col)).orZero

/-- The function `buildMatrix(data, taxonomicColumns)`: a `size` by `size`
matrix of zeros, updated in place by the three nested `forEach` loops. The
pair `is` is `(i, source)` and the pair `jt` is `(j, target)`. -/
def buildMatrix (data : List Profile) (taxonomicColumns : List String) : Matrix :=
  let size := data.length
  let matrix : Matrix := List.replicate size (List.replicate size 0)
  data.enum.foldl (fun matrix is =>
    data.enum.foldl (fun matrix jt =>
      taxonomicColumns.foldl (fun matrix col =>
        let sourceValue := profileValue is.2 col
        let targetValue := profileValue jt.2 col
        if sourceValue.gtZero && targetValue.gtZero then
          addAt matrix is.1 jt.1 (JSNum.min sourceValue targetValue)
        else matrix) matrix) matrix) matrix

/-- The cell `matrix[i][j]`, when there is one. -/
def Matrix.cell (matrix : Matrix) (i j : ℕ) : Option JSNum :=
  match matrix[i]? with
  | none => none
  | some row => row[j]?

/-! ## The pipeline of the `then` callback -/

/-- What the callback has computed when it calls `updateVisualization`. -/
structure PipelineResult where
  /-- The selected dataset names. -/
  uniqueDatasets : List (Option String)
  /-- The rows of the selected datasets. -/
  filteredData : List Record
  /-- The labels, one per selected dataset. -/
  labels : List String
  /-- The taxon columns. -/
  taxonomicColumns : List String
  /-- The aggregated profiles, one per selected dataset. -/
  aggregatedData : List Profile
  /-- The relationship matrix. -/
  matrix : Matrix

/-- The body of the `d3.csv(...).then` callback up to the call of
`updateVisualization`; an exception ends it with `Except.error`. -/
def pipeline (data : List Record) : Except String PipelineResult :=
  match taxonomicColumns (filteredData data) with
  | Except.error e => Except.error e
  | Except.ok cols =>
    let aggregated := aggregatedData data cols
    Except.ok ⟨uniqueDatasets data, filteredData data, labels data, cols, aggregated,
      buildMatrix aggregated cols⟩

/-! ## The pointer handlers of `updateVisualization` -/

/-- The datum of a ribbon: the group indices of its two ends. -/
structure Ribbon where
  /-- The index `source.index`. -/
  source : ℕ
  /-- The index `target.index`. -/
  target : ℕ
  deriving DecidableEq, Repr

/-- A `path` element of class `chord`: its datum and its `opacity` style. -/
structure ChordPath where
  /-- The ribbon bound to the element. -/
  datum : Ribbon
  /-- The value of the `opacity` style. -/
  opacity : ℚ
  deriving DecidableEq

/-- The `mouseover` handler of the group of index `index`, on the ribbons: all
are set to opacity `0.1`, then those that pass the filter are set to `1`. -/
def mouseoverRibbons (index : ℕ) (chords : List ChordPath) : List ChordPath :=
  let dimmed := chords.map (fun p => (⟨p.datum, 1 / 10⟩ : ChordPath))
  dimmed.map (fun p =>
    if p.datum.source = index ∨ p.datum.target = index then (⟨p.datum, 1⟩ : ChordPath) else p)

/-- The `mouseout` handler, on the ribbons: all are set to opacity `1`. -/
def mouseoutRibbons (chords : List ChordPath) : List ChordPath :=
  chords.map (fun p => (⟨p.datum, 1⟩ : ChordPath))

/-- The four values written into the tooltip. -/
structure Tooltip where
  /-- The value after `Bodysite:`. -/
  bodysite : Option String
  /-- The value after `Disease:`. -/
  disease : Option String
  /-- The value after `Age:`. -/
  age : Option String
  /-- The value after `Gender:`. -/
  gender : Option String
  deriving DecidableEq, Repr

/-- The four metadata values of a row. -/
def Tooltip.ofRecord (metadata : Record) : Tooltip :=
  ⟨metadata.get "bodysite", metadata.get "disease", metadata.get "age", metadata.get "gender"⟩

/-- The `mouseover` handler of the group of index `index`, on the tooltip:
`metadata = filteredData[d.index]`, whose four fields are shown. Reading a
field of `undefined` throws a `TypeError`. -/
def mouseoverTooltip (filtered : List Record) (index : ℕ) : Except String Tooltip :=
  match filtered[index]? with
  | none => Except.error "TypeError: Cannot read properties of undefined"
  | some metadata => Except.ok (Tooltip.ofRecord metadata)

/-! ## The quantities of the specification -/

/-- The parsed value of a raw entry, with `0` for an entry that is missing or
not numeric. -/
def parsedOrZero (v : JSVal) : JSNum :=
  match parseFloat v with
  | JSNum.nan => JSNum.fin 0
  | x => x

/-- The parsed value `v_k[c]` of a profile at a column. -/
def parsedValue (p : Profile) (c : String) : JSNum := parsedOrZero (p.get c)

/-- The contribution of one taxon column to a cell: `min(a, b)` when `a > 0`
and `b > 0`, and `0` otherwise. -/
def overlapTerm (a b : JSNum) : JSNum :=
  if a.gtZero && b.gtZero then JSNum.min a b else JSNum.fin 0

/-- The sum of two numbers without rounding: finite values are added in the
rationals. -/
def exactAdd : JSNum → JSNum → JSNum
  | JSNum.nan, _ => JSNum.nan
  | _, JSNum.nan => JSNum.nan
  | JSNum.posInf, JSNum.negInf => JSNum.nan
  | JSNum.negInf, JSNum.posInf => JSNum.nan
  | JSNum.posInf, _ => JSNum.posInf
  | _, JSNum.posInf => JSNum.posInf
  | JSNum.negInf, _ => JSNum.negInf
  | _, JSNum.negInf => JSNum.negInf
  | JSNum.fin a, JSNum.fin b => JSNum.fin (a + b)

/-- The sum of a list of numbers without rounding. -/
def exactSum (xs : List JSNum) : JSNum := xs.foldr exactAdd (JSNum.fin 0)

/-- The sum of a list of numbers as the program adds them: from `0`, in the
order of the list, every partial sum rounded to binary64. -/
def roundedSum (xs : List JSNum) : JSNum := xs.foldl JSNum.add (JSNum.fin 0)

/-- The contributions of the taxon columns to the cell of two profiles, in
column order. -/
def overlapTerms (p q : Profile) (cols : List String) : List JSNum :=
  cols.map (fun c => overlapTerm (parsedValue p c) (parsedValue q c))

/-- The sum over the taxon columns of the contributions of two profiles, added
up in column order with rounding. -/
def overlapSum (p q : Profile) (cols : List String) : JSNum :=
  roundedSum (overlapTerms p q cols)

/-- The sum over the taxon columns of the contributions of two profiles,
without rounding. -/
def exactOverlapSum (p q : Profile) (cols : List String) : JSNum :=
  exactSum (overlapTerms p q cols)

/-- The total, without rounding, of a profile over the taxon columns where its
value is not zero. -/
def nonzeroTotal (p : Profile) (cols : List String) : JSNum :=
  exactSum ((cols.filter (fun c => decide (parsedValue p c ≠ JSNum.fin 0))).map (parsedValue p))

/-- The total of a profile over the taxon columns where its value is greater
than zero, added up in column order with rounding. -/
def positiveTotal (p : Profile) (cols : List String) : JSNum :=
  roundedSum ((cols.filter (fun c => (parsedValue p c).gtZero)).map (parsedValue p))

/-- The dataset names of the records, in input order. -/
def datasetNames (data : List Record) : List (Option String) :=
  data.map (fun d => d.get "dataset_name")

/-- The contribution of a raw entry of a record to a total: its parsed value,
and `0` when it is missing or not numeric. -/
def contribution (entry : Option String) : JSNum := parsedOrZero (JSVal.ofOption entry)

/-- The contributions of column `c` of the records of `data` whose
`dataset_name` is `d`, in record order. -/
def datasetContributions (data : List Record) (d : Option String) (c : String) : List JSNum :=
  (data.filter (fun r => decide (r.get "dataset_name" = d))).map
    (fun r => contribution (r.get c))

/-- The sum of the contributions of column `c` over the records of `data` whose
`dataset_name` is `d`, added up in record order with rounding. -/
def datasetTotal (data : List Record) (d : Option String) (c : String) : JSNum :=
  roundedSum (datasetContributions data d c)

/-- The sum, without rounding, of the contributions of column `c` over the
records of `data` whose `dataset_name` is `d`. -/
def datasetExactTotal (data : List Record) (d : Option String) (c : String) : JSNum :=
  exactSum (datasetContributions data d c)

/-- The representative record of the dataset of index `i`: the first record in
input order whose `dataset_name` is the `i`-th selected name. -/
def representativeRecord (data : List Record) (i : ℕ) : Option Record :=
  match (uniqueDatasets data)[i]? with
  | none => none
  | some d => data.find? (fun r => decide (r.get "dataset_name" = d))

/-! ## Auxiliary definitions of the proofs -/

/-- What the innermost loop of `buildMatrix` does to the cell `matrix[i][j]`,
from its value `acc` before the loop. -/
def cellLoop (source target : Profile) (cols : List String) (acc : JSNum) : JSNum :=
  cols.foldl (fun acc col =>
    if (profileValue source col).gtZero && (profileValue target col).gtZero then
      acc + JSNum.min (profileValue source col) (profileValue target col)
    else acc) acc

/-- The first occurrences of the values of a list, in order. -/
def firstOccurrences {α : Type} [DecidableEq α] : List α → List α
  | [] => []
  | x :: xs => x :: (firstOccurrences xs).filter (fun y => decide (y ≠ x))

/-! ## Example inputs -/

/-- The three profiles `A = 5`, `B = 1`, `C = 5` on the column `k__X`. -/
def exampleProfiles : List Profile :=
  [[("dataset_name", JSVal.str "A"), ("k__X", JSVal.num (JSNum.fin 5))],
   [("dataset_name", JSVal.str "B"), ("k__X", JSVal.num (JSNum.fin 1))],
   [("dataset_name", JSVal.str "C"), ("k__X", JSVal.num (JSNum.fin 5))]]

/-- A profile whose value on the column `k__X` is negative. -/
def negativeProfile : Profile :=
  [("dataset_name", JSVal.str "A"), ("k__X", JSVal.num (JSNum.fin (-3)))]

/-- Two profiles on the column `k__X`, the first with a negative value. -/
def signedProfiles : List Profile :=
  [negativeProfile, [("dataset_name", JSVal.str "B"), ("k__X", JSVal.num (JSNum.fin 2))]]

/-- A profile with the values `2 ^ 53` and `1`, whose sum is not a binary64
value. -/
def roundingProfile : Profile :=
  [("dataset_name", JSVal.str "A"), ("k__X", JSVal.num (JSNum.fin 9007199254740992)),
   ("k__Y", JSVal.num (JSNum.fin 1))]

/-- A profile with the values `-3`, `2` and `5`. -/
def mixedProfile : Profile :=
  [("dataset_name", JSVal.str "B"), ("k__X", JSVal.num (JSNum.fin (-3))),
   ("k__Y", JSVal.num (JSNum.fin 2)), ("k__Z", JSVal.num (JSNum.fin 5))]

/-- The two profiles `mixedProfile` and `roundingProfile`. -/
def diagonalProfiles : List Profile := [mixedProfile, roundingProfile]

/-- Two rows of one dataset with the values `0.1` and `0.2` of `k__X`. -/
def roundingRecords : List Record :=
  [[("dataset_name", "A"), ("k__X", "0.1")],
   [("dataset_name", "A"), ("k__X", "0.2")]]

/-- The rows of the example of the specification: dataset `A` with the values
`2` and `3` of `k__X`, `B` with `1`, `C` with `0` and `5`. -/
def exampleRecords : List Record :=
  [[("dataset_name", "A"), ("k__X", "2")],
   [("dataset_name", "A"), ("k__X", "3")],
   [("dataset_name", "B"), ("k__X", "1")],
   [("dataset_name", "C"), ("k__X", "0")],
   [("dataset_name", "C"), ("k__X", "5")]]

/-- Three records of two datasets, with empty `sampleID` throughout and an
empty `country` in the first record of `B`. -/
def labelRecords : List Record :=
  [[("dataset_name", "A"), ("sampleID", ""), ("country", "US")],
   [("dataset_name", "B"), ("sampleID", ""), ("country", "")],
   [("dataset_name", "B"), ("sampleID", ""), ("country", "FR")]]

/-- Three records: two of dataset `A`, then one of dataset `B`. -/
def tooltipRecords : List Record :=
  [[("dataset_name", "A"), ("bodysite", "gut"), ("disease", "none"), ("age", "30"),
      ("gender", "f"), ("k__X", "1")],
   [("dataset_name", "A"), ("bodysite", "skin"), ("disease", "acne"), ("age", "40"),
      ("gender", "m"), ("k__X", "1")],
   [("dataset_name", "B"), ("bodysite", "oral"), ("disease", "caries"), ("age", "50"),
      ("gender", "f"), ("k__X", "1")]]

/-- Fourteen records of twelve datasets, two of which occur twice. -/
def manyRecords : List Record :=
  ["a", "b", "a", "c", "d", "e", "f", "g", "h", "i", "j", "k", "b", "l"].map
    (fun n => [("dataset_name", n)])

/-- Three ribbons with their opacities. -/
def exampleChords : List ChordPath :=
  [⟨⟨0, 1⟩, 3 / 10⟩, ⟨⟨2, 2⟩, 1⟩, ⟨⟨1, 1⟩, 0⟩]

/-! ## Arithmetic of `JSNum` -/

namespace JSNum

theorem add_def (x y : JSNum) : x + y = add x y := rfl

theorem zero_def : (0 : JSNum) = fin 0 := rfl

theorem add_zero' (x : JSNum) : x + 0 = x := by
  cases x <;> simp [add_def, zero_def, add]

theorem zero_add' (x : JSNum) : 0 + x = x := by
  cases x with
  | fin q => by_cases hq : q = 0 <;> simp [add_def, zero_def, add, hq]
  | _ => simp [add_def, zero_def, add]

theorem pow2_pos (e : ℤ) : 0 < pow2 e := by
  unfold pow2
  split <;> positivity

theorem roundMagnitude_geZero (a : ℚ) : (roundMagnitude a).geZero = true := by
  unfold roundMagnitude
  simp only []
  split
  · simp only [geZero, decide_eq_true_eq]
    exact mul_nonneg (Nat.cast_nonneg _) (le_of_lt (pow2_pos _))
  · rfl

theorem round64_geZero (q : ℚ) (hq : 0 ≤ q) : (round64 q).geZero = true := by
  unfold round64
  by_cases h0 : q = 0
  · simp [h0, geZero]
  · have hpos : 0 < q := lt_of_le_of_ne hq (Ne.symm h0)
    simp only [h0, hpos, if_false, if_true]
    exact roundMagnitude_geZero q

theorem min_comm' (x y : JSNum) : min x y = min y x := by
  cases x <;> cases y <;> simp [min, min_comm]

theorem min_self' (x : JSNum) : min x x = x := by
  cases x <;> simp [min]

theorem orZero_ne_nan (x : JSNum) : x.orZero ≠ nan := by
  cases x with
  | fin q => by_cases h : q = 0 <;> simp [orZero, truthy, h]
  | _ => simp [orZero, truthy]

theorem falsy_orZero (x : JSNum) (h : x.orZero.truthy = false) : x.orZero = 0 := by
  cases x with
  | fin q => by_cases hq : q = 0 <;> simp_all [orZero, truthy, zero_def]
  | _ => simp_all [orZero, truthy, zero_def]

end JSNum

/-! ## The loops of `buildMatrix` -/

theorem orZero_parseFloat (v : JSVal) : (parseFloat v).orZero = parsedOrZero v := by
  unfold parsedOrZero
  cases h : parseFloat v with
  | fin q => by_cases hq : q = 0 <;> simp [JSNum.orZero, JSNum.truthy, hq]
  | _ => simp [JSNum.orZero, JSNum.truthy]

theorem profileValue_eq_parsedValue (p : Profile) (c : String) :
    profileValue p c = parsedValue p c :=
  orZero_parseFloat _

theorem modify_fun_id {α : Type} (n : ℕ) (l : List α) : l.modify (fun x => x) n = l :=
  List.modify_id n l

theorem foldl_modify_same {α β : Type} (h : α → β → β) (i : ℕ) (xs : List α) (m : List β) :
    xs.foldl (fun m x => m.modify (h x) i) m
      = m.modify (fun r => xs.foldl (fun r x => h x r) r) i := by
  induction xs generalizing m with
  | nil => simp [modify_fun_id]
  | cons x xs ih =>
    simp only [List.foldl_cons]
    rw [ih, List.modify_modify_eq]
    rfl

theorem modify_length_append {β : Type} (g : β → β) (pre : List β) (b : β) (rest : List β) :
    (pre ++ b :: rest).modify g pre.length = pre ++ g b :: rest := by
  induction pre with
  | nil => simp
  | cons a pre ih => simp [ih]

theorem foldl_enumFrom_modify {α β : Type} (f : α → β → β) (xs : List α) :
    ∀ (pre mid : List β), mid.length = xs.length →
      (xs.enumFrom pre.length).foldl (fun m p => m.modify (f p.2) p.1) (pre ++ mid)
        = pre ++ List.zipWith f xs mid := by
  induction xs with
  | nil =>
    intro pre mid h
    have : mid = [] := List.length_eq_zero.mp (by simpa using h)
    simp [this]
  | cons x xs ih =>
    intro pre mid h
    cases mid with
    | nil => simp at h
    | cons b mid =>
      simp only [List.enumFrom_cons, List.foldl_cons, modify_length_append]
      have h2 : mid.length = xs.length := by simpa using h
      have := ih (pre ++ [f x b]) mid h2
      simp only [List.length_append, List.length_singleton, List.append_assoc,
        List.singleton_append] at this
      simpa using this

theorem foldl_enum_modify {α β : Type} (f : α → β → β) (xs : List α) (m : List β)
    (h : m.length = xs.length) :
    xs.enum.foldl (fun m p => m.modify (f p.2) p.1) m = List.zipWith f xs m := by
  have := foldl_enumFrom_modify f xs [] m h
  simpa [List.enum] using this

theorem zipWith_replicate_len {α β γ : Type} (f : α → β → γ) (b : β) (xs : List α) :
    List.zipWith f xs (List.replicate xs.length b) = xs.map (fun x => f x b) := by
  induction xs with
  | nil => simp
  | cons x xs ih => simp [List.replicate_succ, ih]

theorem colLoop_eq (source target : Profile) (cols : List String) (i j : ℕ) (m : Matrix) :
    cols.foldl (fun matrix col =>
        if (profileValue source col).gtZero && (profileValue target col).gtZero then
          addAt matrix i j (JSNum.min (profileValue source col) (profileValue target col))
        else matrix) m
      = m.modify (fun row => row.modify (cellLoop source target cols) j) i := by
  have step : (fun (matrix : Matrix) (col : String) =>
        if (profileValue source col).gtZero && (profileValue target col).gtZero then
          addAt matrix i j (JSNum.min (profileValue source col) (profileValue target col))
        else matrix)
      = fun matrix col => matrix.modify ((fun col row => row.modify ((fun col x =>
          if (profileValue source col).gtZero && (profileValue target col).gtZero then
            x + JSNum.min (profileValue source col) (profileValue target col)
          else x) col) j) col) i := by
    funext matrix col
    by_cases hc : ((profileValue source col).gtZero && (profileValue target col).gtZero) = true
    · simp only [hc, if_true, addAt]
    · simp [hc, modify_fun_id]
  rw [step, foldl_modify_same]
  congr 1
  funext row
  rw [foldl_modify_same]
  rfl

/-- The row that the loops of `buildMatrix` make of a row of zeros. -/
theorem rowLoop_eq (source : Profile) (data : List Profile) (cols : List String) (row : List JSNum)
    (h : row.length = data.length) :
    data.enum.foldl (fun row jt => row.modify (cellLoop source jt.2 cols) jt.1) row
      = List.zipWith (fun target x => cellLoop source target cols x) data row :=
  foldl_enum_modify (fun target x => cellLoop source target cols x) data row h

/-- The matrix of `buildMatrix`, cell by cell: the three loops leave in
`matrix[i][j]` what the innermost loop accumulates from `0` for the profiles
`data[i]` and `data[j]`. -/
theorem buildMatrix_eq_map (data : List Profile) (cols : List String) :
    buildMatrix data cols
      = data.map (fun source => data.map (fun target => cellLoop source target cols 0)) := by
  unfold buildMatrix
  simp only [colLoop_eq]
  have inner : ∀ (is : ℕ × Profile) (matrix : Matrix),
      data.enum.foldl (fun matrix jt =>
          matrix.modify (fun row => row.modify (cellLoop is.2 jt.2 cols) jt.1) is.1) matrix
        = matrix.modify (fun row => data.enum.foldl
            (fun row jt => row.modify (cellLoop is.2 jt.2 cols) jt.1) row) is.1 := by
    intro is matrix
    exact foldl_modify_same (fun (jt : ℕ × Profile) (row : List JSNum) =>
      row.modify (cellLoop is.2 jt.2 cols) jt.1) is.1 data.enum matrix
  simp only [inner]
  rw [foldl_enum_modify (fun (source : Profile) (row : List JSNum) => data.enum.foldl
      (fun row jt => row.modify (cellLoop source jt.2 cols) jt.1) row) data _ (by simp)]
  rw [zipWith_replicate_len]
  refine List.map_congr_left (fun source _ => ?_)
  rw [rowLoop_eq source data cols _ (by simp), zipWith_replicate_len]

theorem cellLoop_eq_foldl (source target : Profile) (cols : List String) (acc : JSNum) :
    cellLoop source target cols acc
      = (overlapTerms source target cols).foldl JSNum.add acc := by
  unfold cellLoop overlapTerms
  simp only [← profileValue_eq_parsedValue]
  induction cols generalizing acc with
  | nil => rfl
  | cons c cs ih =>
    simp only [List.foldl_cons, List.map_cons]
    rw [ih]
    by_cases hc : ((profileValue source c).gtZero && (profileValue target c).gtZero) = true
    · simp only [hc, if_true, overlapTerm]
      rfl
    · simp only [hc, overlapTerm, Bool.false_eq_true, if_false]
      congr 1
      exact (JSNum.add_zero' acc).symm

theorem cellLoop_zero (source target : Profile) (cols : List String) :
    cellLoop source target cols 0 = overlapSum source target cols := by
  rw [cellLoop_eq_foldl]
  rfl

theorem buildMatrix_eq_overlapSum (data : List Profile) (cols : List String) :
    buildMatrix data cols
      = data.map (fun source => data.map (fun target => overlapSum source target cols)) := by
  rw [buildMatrix_eq_map]
  simp only [cellLoop_zero]

theorem cell_map_map {α : Type} (f : α → α → JSNum) (xs : List α) (i j : ℕ)
    (hi : i < xs.length) (hj : j < xs.length) :
    Matrix.cell (xs.map (fun a => xs.map (fun b => f a b))) i j = some (f xs[i] xs[j]) := by
  simp [Matrix.cell, List.getElem?_map, List.getElem?_eq_getElem hi, List.getElem?_eq_getElem hj]

theorem cell_buildMatrix (data : List Profile) (cols : List String) (i j : ℕ)
    (hi : i < data.length) (hj : j < data.length) :
    (buildMatrix data cols).cell i j = some (overlapSum data[i] data[j] cols) := by
  rw [buildMatrix_eq_overlapSum]
  exact cell_map_map (fun a b => overlapSum a b cols) data i j hi hj

theorem overlapTerm_comm (a b : JSNum) : overlapTerm a b = overlapTerm b a := by
  unfold overlapTerm
  rw [Bool.and_comm, JSNum.min_comm']

theorem overlapSum_comm (p q : Profile) (cols : List String) :
    overlapSum p q cols = overlapSum q p cols := by
  unfold overlapSum overlapTerms
  congr 1
  exact List.map_congr_left (fun c _ => overlapTerm_comm _ _)

theorem min_geZero (a b : JSNum) (ha : a.gtZero = true) (hb : b.gtZero = true) :
    (JSNum.min a b).geZero = true := by
  cases a <;> cases b <;> simp_all [JSNum.gtZero, JSNum.geZero, JSNum.min]
  all_goals (first | exact ⟨le_of_lt ha, le_of_lt hb⟩ | exact le_of_lt ha | exact le_of_lt hb)

theorem overlapTerm_geZero (a b : JSNum) : (overlapTerm a b).geZero = true := by
  unfold overlapTerm
  by_cases h : (a.gtZero && b.gtZero) = true
  · rw [if_pos h]
    rw [Bool.and_eq_true] at h
    exact min_geZero a b h.1 h.2
  · rw [if_neg h]
    simp [JSNum.geZero]

theorem add_geZero (a b : JSNum) (ha : a.geZero = true) (hb : b.geZero = true) :
    (JSNum.add a b).geZero = true := by
  cases a with
  | fin x =>
    cases b with
    | fin y =>
      have hx : 0 ≤ x := by simpa [JSNum.geZero] using ha
      have hy : 0 ≤ y := by simpa [JSNum.geZero] using hb
      simp only [JSNum.add]
      split
      · exact ha
      · split
        · exact hb
        · exact JSNum.round64_geZero _ (add_nonneg hx hy)
    | _ => simp_all [JSNum.geZero, JSNum.add]
  | _ => cases b <;> simp_all [JSNum.geZero, JSNum.add]

theorem foldl_add_geZero (xs : List JSNum) (hxs : ∀ x ∈ xs, x.geZero = true) :
    ∀ acc : JSNum, acc.geZero = true → (xs.foldl JSNum.add acc).geZero = true := by
  induction xs with
  | nil => intro acc hacc; exact hacc
  | cons x xs ih =>
    intro acc hacc
    simp only [List.foldl_cons]
    exact ih (fun y hy => hxs y (List.mem_cons_of_mem _ hy)) _
      (add_geZero _ _ hacc (hxs x (List.mem_cons_self _ _)))

theorem overlapSum_geZero (p q : Profile) (cols : List String) :
    (overlapSum p q cols).geZero = true := by
  unfold overlapSum roundedSum
  refine foldl_add_geZero _ (fun x hx => ?_) _ (by simp [JSNum.geZero])
  simp only [overlapTerms, List.mem_map] at hx
  obtain ⟨c, _, rfl⟩ := hx
  exact overlapTerm_geZero _ _

theorem looseEq_self_of_geZero (x : JSNum) (h : x.geZero = true) : JSNum.looseEq x x = true := by
  cases x <;> simp_all [JSNum.geZero, JSNum.looseEq]

theorem overlapTerm_self (a : JSNum) :
    overlapTerm a a = if a.gtZero then a else JSNum.fin 0 := by
  unfold overlapTerm
  rw [Bool.and_self, JSNum.min_self']

theorem foldl_overlapTerms_self (p : Profile) (cols : List String) :
    ∀ acc : JSNum, (overlapTerms p p cols).foldl JSNum.add acc
      = ((cols.filter (fun c => (parsedValue p c).gtZero)).map (parsedValue p)).foldl
          JSNum.add acc := by
  unfold overlapTerms
  induction cols with
  | nil => intro acc; rfl
  | cons c cs ih =>
    intro acc
    simp only [List.map_cons, List.foldl_cons, List.filter_cons]
    rw [ih, overlapTerm_self]
    by_cases h : (parsedValue p c).gtZero = true
    · simp only [h, if_true, List.map_cons, List.foldl_cons]
    · simp only [h, Bool.false_eq_true, if_false]
      congr 1
      exact JSNum.add_zero' acc

theorem overlapSum_self (p : Profile) (cols : List String) :
    overlapSum p p cols = positiveTotal p cols :=
  foldl_overlapTerms_self p cols _

/-! ## The selection -/

theorem foldl_setAdd {α : Type} [DecidableEq α] (xs : List α) :
    ∀ acc : List α, xs.foldl setAdd acc
      = acc ++ (firstOccurrences xs).filter (fun y => decide (y ∉ acc)) := by
  induction xs with
  | nil => intro acc; simp [firstOccurrences]
  | cons x xs ih =>
    intro acc
    simp only [List.foldl_cons, firstOccurrences]
    rw [ih]
    by_cases hx : x ∈ acc
    · simp only [setAdd, hx, if_true, List.filter_cons, not_true_eq_false, decide_False,
        Bool.false_eq_true, if_false, List.filter_filter]
      congr 1
      refine List.filter_congr (fun y _ => ?_)
      by_cases hy : y ∈ acc
      · simp [hy]
      · have : y ≠ x := fun h => hy (h ▸ hx)
        simp [hy, this]
    · simp only [setAdd, hx, if_false, List.filter_cons, not_false_eq_true, decide_True,
        if_true, List.filter_filter, List.append_assoc, List.singleton_append]
      congr 2
      refine List.filter_congr (fun y _ => ?_)
      by_cases hy : y ∈ acc <;> by_cases hyx : y = x <;> simp [hy, hyx]

theorem newSet_eq {α : Type} [DecidableEq α] (xs : List α) : newSet xs = firstOccurrences xs := by
  unfold newSet
  rw [foldl_setAdd]
  simp

theorem mem_firstOccurrences {α : Type} [DecidableEq α] (xs : List α) (y : α) :
    y ∈ firstOccurrences xs ↔ y ∈ xs := by
  induction xs with
  | nil => simp [firstOccurrences]
  | cons x xs ih =>
    simp only [firstOccurrences, List.mem_cons, List.mem_filter, ih]
    by_cases h : y = x <;> simp [h]

theorem nodup_firstOccurrences {α : Type} [DecidableEq α] (xs : List α) :
    (firstOccurrences xs).Nodup := by
  induction xs with
  | nil => simp [firstOccurrences]
  | cons x xs ih =>
    simp only [firstOccurrences, List.nodup_cons, List.mem_filter]
    exact ⟨by simp, ih.filter _⟩

theorem pairwise_firstOccurrences {α : Type} [DecidableEq α] [BEq α] [LawfulBEq α]
    (xs : List α) :
    List.Pairwise (fun a b => xs.indexOf a < xs.indexOf b) (firstOccurrences xs) := by
  induction xs with
  | nil => simp [firstOccurrences]
  | cons x xs ih =>
    simp only [firstOccurrences, List.pairwise_cons, List.mem_filter]
    constructor
    · intro y hy
      have hne : (x == y) = false := by
        rw [beq_eq_false_iff_ne]
        exact fun h => by simp [h] at hy
      simp [List.indexOf_cons, hne]
    · have h1 := List.Pairwise.sublist (@List.filter_sublist _ (fun y => decide (y ≠ x)) _) ih
      refine List.Pairwise.imp_of_mem ?_ h1
      intro a b ha hb hab
      have hax : (x == a) = false := by
        rw [beq_eq_false_iff_ne]
        exact fun h => by simp [List.mem_filter, h] at ha
      have hbx : (x == b) = false := by
        rw [beq_eq_false_iff_ne]
        exact fun h => by simp [List.mem_filter, h] at hb
      simp [List.indexOf_cons, hax, hbx, hab]

theorem uniqueDatasets_eq (data : List Record) :
    uniqueDatasets data = (firstOccurrences (datasetNames data)).take 10 := by
  unfold uniqueDatasets datasetNames
  rw [newSet_eq]

theorem mem_uniqueDatasets_names (data : List Record) (x : Option String)
    (h : x ∈ uniqueDatasets data) : x ∈ datasetNames data := by
  rw [uniqueDatasets_eq] at h
  exact (mem_firstOccurrences _ _).mp (List.mem_of_mem_take h)

theorem uniqueDatasets_earliest (data : List Record) (x y : Option String)
    (hx : x ∈ datasetNames data) (hy : y ∈ uniqueDatasets data)
    (hlt : (datasetNames data).indexOf x < (datasetNames data).indexOf y) :
    x ∈ uniqueDatasets data := by
  rw [uniqueDatasets_eq] at hy ⊢
  have hx2 : x ∈ firstOccurrences (datasetNames data) := (mem_firstOccurrences _ _).mpr hx
  rw [← List.take_append_drop 10 (firstOccurrences (datasetNames data)), List.mem_append] at hx2
  rcases hx2 with h | h
  · exact h
  · have hp := pairwise_firstOccurrences (datasetNames data)
    rw [← List.take_append_drop 10 (firstOccurrences (datasetNames data)),
      List.pairwise_append] at hp
    have := hp.2.2 y hy x h
    omega

/-- C3. For every record sequence, the selection `uniqueDatasets` has no
duplicates, has length `min 10 (number of distinct dataset_name values)`,
holds dataset names of the records only, lists them in the order of their
first appearance (a name that first appears before a selected one is selected
too, and selected names are ordered by first appearance), and holds every name
when fewer than 10 distinct names exist. -/
theorem uniqueDatasets_selection (data : List Record) :
    (uniqueDatasets data).Nodup ∧
    (uniqueDatasets data).length = min 10 (datasetNames data).toFinset.card ∧
    (∀ x ∈ uniqueDatasets data, x ∈ datasetNames data) ∧
    List.Pairwise (fun a b => (datasetNames data).indexOf a < (datasetNames data).indexOf b)
      (uniqueDatasets data) ∧
    (∀ x ∈ datasetNames data, ∀ y ∈ uniqueDatasets data,
      (datasetNames data).indexOf x < (datasetNames data).indexOf y → x ∈ uniqueDatasets data) ∧
    ((datasetNames data).toFinset.card < 10 →
      ∀ x ∈ datasetNames data, x ∈ uniqueDatasets data) := by
  have hcard : (datasetNames data).toFinset.card = (firstOccurrences (datasetNames data)).length := by
    rw [← List.toFinset_card_of_nodup (nodup_firstOccurrences _)]
    congr 1
    ext y
    simp [mem_firstOccurrences]
  refine ⟨?_, ?_, mem_uniqueDatasets_names data, ?_, ?_, ?_⟩
  · rw [uniqueDatasets_eq]
    exact (nodup_firstOccurrences _).sublist (List.take_sublist _ _)
  · rw [uniqueDatasets_eq, List.length_take, hcard]
  · rw [uniqueDatasets_eq]
    exact (pairwise_firstOccurrences _).sublist (List.take_sublist _ _)
  · intro x hx y hy hlt
    exact uniqueDatasets_earliest data x y hx hy hlt
  · intro hlt x hx
    rw [uniqueDatasets_eq, List.take_of_length_le (by omega)]
    exact (mem_firstOccurrences _ _).mpr hx

/-- Witness of C3: of twelve distinct names the first ten are selected, in the
order of their first appearance. -/
theorem uniqueDatasets_selection_witness :
    ((uniqueDatasets manyRecords).Nodup ∧
    (uniqueDatasets manyRecords).length = min 10 (datasetNames manyRecords).toFinset.card ∧
    (∀ x ∈ uniqueDatasets manyRecords, x ∈ datasetNames manyRecords) ∧
    List.Pairwise
      (fun a b => (datasetNames manyRecords).indexOf a < (datasetNames manyRecords).indexOf b)
      (uniqueDatasets manyRecords) ∧
    (∀ x ∈ datasetNames manyRecords, ∀ y ∈ uniqueDatasets manyRecords,
      (datasetNames manyRecords).indexOf x < (datasetNames manyRecords).indexOf y →
        x ∈ uniqueDatasets manyRecords) ∧
    ((datasetNames manyRecords).toFinset.card < 10 →
      ∀ x ∈ datasetNames manyRecords, x ∈ uniqueDatasets manyRecords)) ∧
    uniqueDatasets manyRecords
      = [some "a", some "b", some "c", some "d", some "e", some "f", some "g", some "h",
         some "i", some "j"] :=
  ⟨uniqueDatasets_selection manyRecords, by decide⟩

/-! ## The aggregation -/

theorem rowValue_eq_contribution (c : String) (row : Record) :
    rowValue c row = contribution (row.get c) :=
  orZero_parseFloat _

theorem contribution_falsy (entry : Option String) (h : (contribution entry).truthy = false) :
    contribution entry = JSNum.fin 0 := by
  unfold contribution parsedOrZero at h ⊢
  cases hp : parseFloat (JSVal.ofOption entry) with
  | fin q => simp_all [JSNum.truthy]
  | _ => simp_all [JSNum.truthy]

theorem d3sum_foldl {α : Type} (f : α → JSNum) (hf : ∀ a, (f a).truthy = false → f a = JSNum.fin 0)
    (rows : List α) (acc : JSNum) :
    rows.foldl (fun sum value => if (f value).truthy then sum + f value else sum) acc
      = (rows.map f).foldl JSNum.add acc := by
  induction rows generalizing acc with
  | nil => rfl
  | cons r rows ih =>
    simp only [List.foldl_cons, List.map_cons]
    rw [ih]
    by_cases h : (f r).truthy = true
    · simp only [h, if_true]
      rfl
    · have h0 : f r = JSNum.fin 0 := hf r (by simpa using h)
      simp only [h, Bool.false_eq_true, if_false]
      congr 1
      rw [h0]
      exact (JSNum.add_zero' acc).symm

theorem d3sum_rowValue (rows : List Record) (c : String) :
    d3sum rows (rowValue c) = roundedSum (rows.map (fun r => contribution (r.get c))) := by
  have hfun : rowValue c = fun r => contribution (r.get c) :=
    funext (rowValue_eq_contribution c)
  have h := d3sum_foldl (fun r : Record => contribution (r.get c))
    (fun a => contribution_falsy (a.get c)) rows 0
  unfold d3sum
  rw [hfun]
  exact h

theorem lookup_setProp (o : Profile) (k : String) (v : JSVal) (k' : String) :
    (setProp o k v).lookup k' = if k' = k then some v else o.lookup k' := by
  unfold setProp
  induction o with
  | nil =>
    by_cases h : k' = k
    · simp [List.lookup, h]
    · have : (k' == k) = false := by simpa using h
      simp [List.lookup, h, this]
  | cons p o ih =>
    obtain ⟨a, b⟩ := p
    by_cases hak : a = k
    · subst hak
      by_cases h : k' = a
      · simp [List.lookup, h]
      · have h2 : (k' == a) = false := by simpa using h
        simp only [List.any_cons, beq_self_eq_true, Bool.true_or, if_true, List.map_cons,
          List.lookup, h2, h, if_false]
        by_cases hany : (o.any (fun p => p.1 == a)) = true
        · simpa [hany, h] using ih
        · have hmap : o.map (fun p => if (p.1 == a) = true then (a, v) else p) = o := by
            have : ∀ p ∈ o, (if (p.1 == a) = true then (a, v) else p) = p := by
              intro p hp
              have : (p.1 == a) = false := by
                have := List.any_eq_true.not.mp hany
                simpa using fun h => this ⟨p, hp, h⟩
              simp [this]
            conv_rhs => rw [← List.map_id o]
            exact List.map_congr_left this
          rw [hmap]
    · have hak2 : (a == k) = false := by simpa using hak
      simp only [List.any_cons, hak2, Bool.false_or, List.map_cons, if_false,
        Bool.false_eq_true, List.cons_append]
      by_cases hany : (o.any (fun p => p.1 == k)) = true
      · simp only [hany, if_true] at ih ⊢
        by_cases hk'a : k' = a
        · subst hk'a
          simp [List.lookup, hak]
        · have : (k' == a) = false := by simpa using hk'a
          simp only [List.lookup, this]
          exact ih
      · simp only [hany, Bool.false_eq_true, if_false] at ih ⊢
        by_cases hk'a : k' = a
        · subst hk'a
          simp [List.lookup, hak]
        · have : (k' == a) = false := by simpa using hk'a
          simp only [List.lookup, this]
          exact ih

theorem lookup_foldl_setProp (g : String → JSVal) (cols : List String) (k : String) :
    ∀ o : Profile, (cols.foldl (fun o c => setProp o c (g c)) o).lookup k
      = if k ∈ cols then some (g k) else o.lookup k := by
  induction cols with
  | nil => intro o; simp
  | cons c cs ih =>
    intro o
    simp only [List.foldl_cons, List.mem_cons]
    rw [ih, lookup_setProp]
    by_cases h1 : k ∈ cs
    · simp [h1]
    · by_cases h2 : k = c
      · simp [h1, h2]
      · simp [h1, h2]

theorem filter_filter_of_imp {α : Type} (p q : α → Bool) (h : ∀ x, q x = true → p x = true)
    (xs : List α) : (xs.filter p).filter q = xs.filter q := by
  rw [List.filter_filter]
  refine List.filter_congr (fun x _ => ?_)
  cases hq : q x
  · simp
  · simp [h x hq]

theorem find?_filter_of_imp {α : Type} (p q : α → Bool) (h : ∀ x, q x = true → p x = true)
    (xs : List α) : (xs.filter p).find? q = xs.find? q := by
  induction xs with
  | nil => rfl
  | cons x xs ih =>
    cases hq : q x
    · cases hp : p x
      · simp [List.filter_cons, hp, List.find?_cons, hq, ih]
      · simp [List.filter_cons, hp, List.find?_cons, hq, ih]
    · simp [List.filter_cons, h x hq, List.find?_cons, hq]

theorem filteredData_filter (data : List Record) (d : Option String)
    (hd : d ∈ uniqueDatasets data) :
    (filteredData data).filter (fun r => decide (r.get "dataset_name" = d))
      = data.filter (fun r => decide (r.get "dataset_name" = d)) := by
  unfold filteredData
  refine filter_filter_of_imp _ _ (fun x hx => ?_) data
  have : x.get "dataset_name" = d := by simpa using hx
  simpa [this] using hd

theorem filteredData_find? (data : List Record) (d : Option String)
    (hd : d ∈ uniqueDatasets data) :
    (filteredData data).find? (fun r => decide (r.get "dataset_name" = d))
      = data.find? (fun r => decide (r.get "dataset_name" = d)) := by
  unfold filteredData
  refine find?_filter_of_imp _ _ (fun x hx => ?_) data
  have : x.get "dataset_name" = d := by simpa using hx
  simpa [this] using hd

theorem head_mem_uniqueDatasets (r : Record) (rest : List Record) :
    r.get "dataset_name" ∈ uniqueDatasets (r :: rest) := by
  rw [uniqueDatasets_eq]
  simp [datasetNames, firstOccurrences]

theorem filteredData_head (r : Record) (rest : List Record) :
    (filteredData (r :: rest))[0]? = some r := by
  have h := head_mem_uniqueDatasets r rest
  unfold filteredData
  simp [List.filter_cons, h]

theorem exists_find?_of_mem_uniqueDatasets (data : List Record) (d : Option String)
    (hd : d ∈ uniqueDatasets data) :
    ∃ first, data.find? (fun r => decide (r.get "dataset_name" = d)) = some first := by
  have hmem := mem_uniqueDatasets_names data d hd
  unfold datasetNames at hmem
  rw [List.mem_map] at hmem
  obtain ⟨r, hr, hrd⟩ := hmem
  cases hf : data.find? (fun r => decide (r.get "dataset_name" = d)) with
  | some first => exact ⟨first, rfl⟩
  | none =>
    rw [List.find?_eq_none] at hf
    exact absurd (by simpa using hrd) (hf r hr)

theorem isTaxonColumn_ne_dataset_name (c : String) (h : isTaxonColumn c = true) :
    c ≠ "dataset_name" := by
  intro hc
  subst hc
  revert h
  decide

theorem aggregateOf_get (filtered : List Record) (cols : List String) (dataset : Option String)
    (c : String) (hc : c ∈ cols) :
    (aggregateOf filtered cols dataset).get c
      = JSVal.num (d3sum (filtered.filter (fun d => decide (d.get "dataset_name" = dataset)))
          (rowValue c)) := by
  unfold aggregateOf Profile.get
  simp only []
  rw [lookup_foldl_setProp (fun col => JSVal.num (d3sum (filtered.filter
    (fun d => decide (d.get "dataset_name" = dataset))) (rowValue col)))]
  simp [hc]

theorem aggregateOf_get_dataset_name (filtered : List Record) (cols : List String)
    (dataset : Option String) (hc : "dataset_name" ∉ cols) :
    (aggregateOf filtered cols dataset).get "dataset_name" = JSVal.ofOption dataset := by
  unfold aggregateOf Profile.get
  simp only []
  rw [lookup_foldl_setProp (fun col => JSVal.num (d3sum (filtered.filter
    (fun d => decide (d.get "dataset_name" = dataset))) (rowValue col)))]
  simp [hc, List.lookup]

/-- C4. For every non-empty record sequence the callback reaches
`updateVisualization`; the aggregated profiles are as many as the selected
datasets and in the same order (profile `i` carries the `i`-th selected name);
the taxon columns are the `k__` properties of the first record; and for each of
them the entry of a profile is the sum of the contributions (parsed value, `0`
when missing or not numeric) of exactly the records of its dataset. -/
theorem aggregatedData_additive (data : List Record) (hne : data ≠ []) :
    ∃ (res : PipelineResult) (first : Record), pipeline data = Except.ok res ∧
      res.uniqueDatasets = uniqueDatasets data ∧
      data.head? = some first ∧
      res.taxonomicColumns = (objectKeys first).filter isTaxonColumn ∧
      res.aggregatedData.length = res.uniqueDatasets.length ∧
      ∀ (i : ℕ) (d : Option String), res.uniqueDatasets[i]? = some d →
        ∃ p : Profile, res.aggregatedData[i]? = some p ∧
          p.get "dataset_name" = JSVal.ofOption d ∧
          ∀ c ∈ res.taxonomicColumns, p.get c = JSVal.num (datasetTotal data d c) := by
  cases data with
  | nil => exact absurd rfl hne
  | cons r rest =>
    have hcols : taxonomicColumns (filteredData (r :: rest))
        = Except.ok ((objectKeys r).filter isTaxonColumn) := by
      unfold taxonomicColumns
      rw [filteredData_head]
    refine ⟨_, r, by unfold pipeline; rw [hcols], rfl, rfl, rfl, by simp [aggregatedData], ?_⟩
    intro i d hid
    have hid2 : (uniqueDatasets (r :: rest))[i]? = some d := hid
    have hd : d ∈ uniqueDatasets (r :: rest) := List.getElem?_mem hid2
    refine ⟨aggregateOf (filteredData (r :: rest)) ((objectKeys r).filter isTaxonColumn) d,
      by simp [aggregatedData, List.getElem?_map, hid2], ?_, ?_⟩
    · refine aggregateOf_get_dataset_name _ _ _ (fun hmem => ?_)
      exact isTaxonColumn_ne_dataset_name _ (List.mem_filter.mp hmem).2 rfl
    · intro c hc
      rw [aggregateOf_get _ _ _ c hc, filteredData_filter _ _ hd, d3sum_rowValue]
      rfl

/-- Witness of C4: the rows `A:[2,3]`, `B:[1]`, `C:[0,5]` of the column `k__X`
give the profiles `A = 5`, `B = 1`, `C = 5`, and from them the matrix
`[[5,1,5],[1,1,1],[5,1,5]]`. -/
theorem aggregatedData_additive_witness :
    exampleRecords ≠ [] ∧
    (∃ (res : PipelineResult) (first : Record), pipeline exampleRecords = Except.ok res ∧
      res.uniqueDatasets = uniqueDatasets exampleRecords ∧
      exampleRecords.head? = some first ∧
      res.taxonomicColumns = (objectKeys first).filter isTaxonColumn ∧
      res.aggregatedData.length = res.uniqueDatasets.length ∧
      ∀ (i : ℕ) (d : Option String), res.uniqueDatasets[i]? = some d →
        ∃ p : Profile, res.aggregatedData[i]? = some p ∧
          p.get "dataset_name" = JSVal.ofOption d ∧
          ∀ c ∈ res.taxonomicColumns, p.get c = JSVal.num (datasetTotal exampleRecords d c)) ∧
    (pipeline exampleRecords).toOption.map (fun res => res.aggregatedData)
      = some exampleProfiles ∧
    (pipeline exampleRecords).toOption.map (fun res => res.matrix)
      = some [[JSNum.fin 5, JSNum.fin 1, JSNum.fin 5], [JSNum.fin 1, JSNum.fin 1, JSNum.fin 1],
         [JSNum.fin 5, JSNum.fin 1, JSNum.fin 5]] :=
  ⟨by decide, aggregatedData_additive exampleRecords (by decide), by decide!, by decide!⟩

/-! ## The matrix -/

/-- C1. For every list of profiles of length `N` and every list of taxon
columns, `buildMatrix` returns `N` rows of length `N`, and the cell `[i][j]`
is the sum over the taxon columns `c` of `min(v_i[c], v_j[c])` when both are
greater than `0` and of `0` otherwise, `v_k[c]` being the parsed value
`parseFloat(data[k][c]) || 0`. -/
theorem buildMatrix_cell_sum_min (data : List Profile) (cols : List String) (i j : ℕ)
    (hi : i < data.length) (hj : j < data.length) :
    (buildMatrix data cols).length = data.length ∧
    (∀ row ∈ buildMatrix data cols, row.length = data.length) ∧
    (buildMatrix data cols).cell i j = some (overlapSum data[i] data[j] cols) := by
  refine ⟨?_, ?_, cell_buildMatrix data cols i j hi hj⟩
  · rw [buildMatrix_eq_overlapSum, List.length_map]
  · intro row hrow
    rw [buildMatrix_eq_overlapSum, List.mem_map] at hrow
    obtain ⟨_, _, rfl⟩ := hrow
    rw [List.length_map]

/-- Witness of C1: the profiles `A = 5`, `B = 1`, `C = 5` on the single
column `k__X` give the matrix `[[5,1,5],[1,1,1],[5,1,5]]`. -/
theorem buildMatrix_cell_sum_min_witness :
    (0 < exampleProfiles.length ∧ 1 < exampleProfiles.length) ∧
    ((buildMatrix exampleProfiles ["k__X"]).length = exampleProfiles.length ∧
      (∀ row ∈ buildMatrix exampleProfiles ["k__X"], row.length = exampleProfiles.length) ∧
      (buildMatrix exampleProfiles ["k__X"]).cell 0 1
        = some (overlapSum (exampleProfiles.get ⟨0, by decide⟩)
            (exampleProfiles.get ⟨1, by decide⟩) ["k__X"])) ∧
    buildMatrix exampleProfiles ["k__X"]
      = [[JSNum.fin 5, JSNum.fin 1, JSNum.fin 5], [JSNum.fin 1, JSNum.fin 1, JSNum.fin 1],
         [JSNum.fin 5, JSNum.fin 1, JSNum.fin 5]] :=
  ⟨⟨by decide, by decide⟩,
    buildMatrix_cell_sum_min exampleProfiles ["k__X"] 0 1 (by decide) (by decide), by decide!⟩

/-- C2. For every list of profiles and every list of taxon columns, the matrix
of `buildMatrix` is symmetric: for all `i`, `j` below the number of profiles
the cells `[i][j]` and `[j][i]` exist and `matrix[i][j] == matrix[j][i]`. -/
theorem buildMatrix_symmetric (data : List Profile) (cols : List String) (i j : ℕ)
    (hi : i < data.length) (hj : j < data.length) :
    ∃ x y : JSNum, (buildMatrix data cols).cell i j = some x ∧
      (buildMatrix data cols).cell j i = some y ∧ JSNum.looseEq x y = true := by
  refine ⟨_, _, cell_buildMatrix data cols i j hi hj, cell_buildMatrix data cols j i hj hi, ?_⟩
  rw [overlapSum_comm data[j] data[i]]
  exact looseEq_self_of_geZero _ (overlapSum_geZero _ _ _)

/-- Witness of C2, at the cells `[0][2]` and `[2][0]` of the example. -/
theorem buildMatrix_symmetric_witness :
    (0 < exampleProfiles.length ∧ 2 < exampleProfiles.length) ∧
    ∃ x y : JSNum, (buildMatrix exampleProfiles ["k__X"]).cell 0 2 = some x ∧
      (buildMatrix exampleProfiles ["k__X"]).cell 2 0 = some y ∧ JSNum.looseEq x y = true :=
  ⟨⟨by decide, by decide⟩,
    buildMatrix_symmetric exampleProfiles ["k__X"] 0 2 (by decide) (by decide)⟩

/-- Counterexample of C9: a profile whose only value is `-3` has the diagonal
cell `0`, and its total over the columns where it is not zero is `-3`. -/
theorem buildMatrix_diag_nonzeroTotal_fails :
    (buildMatrix signedProfiles ["k__X"]).cell 0 0 = some (JSNum.fin 0) ∧
    signedProfiles[0]? = some negativeProfile ∧
    nonzeroTotal negativeProfile ["k__X"] = JSNum.fin (-3) ∧
    (buildMatrix signedProfiles ["k__X"]).cell 0 0
      ≠ some (nonzeroTotal negativeProfile ["k__X"]) := by
  decide!

/-- C9, amended. For every list of profiles and every index `i`, the diagonal
cell `[i][i]` is the total of the parsed values of profile `i` over the taxon
columns where that value is greater than `0`. -/
theorem buildMatrix_diag_positiveTotal (data : List Profile) (cols : List String) (i : ℕ)
    (hi : i < data.length) :
    (buildMatrix data cols).cell i i = some (positiveTotal data[i] cols) := by
  rw [cell_buildMatrix data cols i i hi hi, overlapSum_self]

/-- Witness of C9 as amended, at the profile with the negative value. -/
theorem buildMatrix_diag_positiveTotal_witness :
    0 < signedProfiles.length ∧
    (buildMatrix signedProfiles ["k__X"]).cell 0 0
      = some (positiveTotal (signedProfiles.get ⟨0, by decide⟩) ["k__X"]) :=
  ⟨by decide, buildMatrix_diag_positiveTotal signedProfiles ["k__X"] 0 (by decide)⟩

/-- C10. For every list of profiles, whatever their parsed values (negative
ones too), and every list of taxon columns, every cell of the matrix of
`buildMatrix` is greater than or equal to `0`. -/
theorem buildMatrix_nonneg (data : List Profile) (cols : List String) (row : List JSNum)
    (hrow : row ∈ buildMatrix data cols) (x : JSNum) (hx : x ∈ row) : x.geZero = true := by
  rw [buildMatrix_eq_overlapSum, List.mem_map] at hrow
  obtain ⟨_, _, rfl⟩ := hrow
  rw [List.mem_map] at hx
  obtain ⟨_, _, rfl⟩ := hx
  exact overlapSum_geZero _ _ _

/-- Witness of C10, on two profiles of which one has a negative value. -/
theorem buildMatrix_nonneg_witness :
    [JSNum.fin 0, JSNum.fin 2] ∈ buildMatrix signedProfiles ["k__X"] ∧
    JSNum.fin 2 ∈ [JSNum.fin 0, JSNum.fin 2] ∧ (JSNum.fin 2).geZero = true :=
  ⟨by decide!, by decide!,
    buildMatrix_nonneg signedProfiles ["k__X"] [JSNum.fin 0, JSNum.fin 2] (by decide!)
      (JSNum.fin 2) (by decide!)⟩

/-! ## The labels -/

theorem orElse_of_falsy (v : Option String) (dflt : String) (h : v = none ∨ v = some "") :
    orElse v dflt = dflt := by
  rcases h with h | h <;> simp [orElse, h]

theorem orElse_of_truthy (v : Option String) (dflt s : String) (h : v = some s) (hs : s ≠ "") :
    orElse v dflt = s := by
  simp [orElse, h, hs]

/-- C7. For every record sequence and every selected dataset `d` (the `i`-th
of the selection), the dataset has a first record in input order, and the
`i`-th label is `s1 | s2 | s3` built from that record: each segment is the
field (`dataset_name`, `sampleID`, `country`) when it is present and not empty,
and its placeholder (`Unknown Dataset`, `Unknown Sample`, `Unknown Country`)
when it is absent or empty, independently of the other two. In particular the
second segment is `Unknown Sample` when every record of the dataset has an
empty `sampleID`. There are as many labels as selected datasets. -/
theorem labels_segments (data : List Record) (i : ℕ) (d : Option String)
    (hd : (uniqueDatasets data)[i]? = some d) :
    (labels data).length = (uniqueDatasets data).length ∧
    ∃ (first : Record) (s1 s2 s3 : String),
      data.find? (fun r => decide (r.get "dataset_name" = d)) = some first ∧
      (labels data)[i]? = some (s1 ++ " | " ++ s2 ++ " | " ++ s3) ∧
      (first.get "dataset_name" = none ∨ first.get "dataset_name" = some "" →
        s1 = "Unknown Dataset") ∧
      (∀ v, first.get "dataset_name" = some v → v ≠ "" → s1 = v) ∧
      (first.get "sampleID" = none ∨ first.get "sampleID" = some "" → s2 = "Unknown Sample") ∧
      (∀ v, first.get "sampleID" = some v → v ≠ "" → s2 = v) ∧
      (first.get "country" = none ∨ first.get "country" = some "" → s3 = "Unknown Country") ∧
      (∀ v, first.get "country" = some v → v ≠ "" → s3 = v) ∧
      ((∀ r ∈ data, r.get "dataset_name" = d →
          (r.get "sampleID" = none ∨ r.get "sampleID" = some "")) → s2 = "Unknown Sample") := by
  have hmem : d ∈ uniqueDatasets data := List.getElem?_mem hd
  obtain ⟨first, hfirst⟩ := exists_find?_of_mem_uniqueDatasets data d hmem
  refine ⟨by simp [labels], first, orElse (first.get "dataset_name") "Unknown Dataset",
    orElse (first.get "sampleID") "Unknown Sample",
    orElse (first.get "country") "Unknown Country", hfirst, ?_,
    orElse_of_falsy _ _, fun v hv hne => orElse_of_truthy _ _ v hv hne,
    orElse_of_falsy _ _, fun v hv hne => orElse_of_truthy _ _ v hv hne,
    orElse_of_falsy _ _, fun v hv hne => orElse_of_truthy _ _ v hv hne, ?_⟩
  · simp only [labels, List.getElem?_map, hd, Option.map_some', labelOf]
    rw [filteredData_find? data d hmem, hfirst]
  · intro hall
    have h1 := List.mem_of_find?_eq_some hfirst
    have h2 : first.get "dataset_name" = d := by
      simpa using List.find?_some hfirst
    exact orElse_of_falsy _ _ (hall first h1 h2)

/-- Witness of C7: two datasets whose records all have an empty `sampleID`, the
second with an empty `country` in its first record. -/
theorem labels_segments_witness :
    (uniqueDatasets labelRecords)[1]? = some (some "B") ∧
    ((labels labelRecords).length = (uniqueDatasets labelRecords).length ∧
    ∃ (first : Record) (s1 s2 s3 : String),
      labelRecords.find? (fun r => decide (r.get "dataset_name" = some "B")) = some first ∧
      (labels labelRecords)[1]? = some (s1 ++ " | " ++ s2 ++ " | " ++ s3) ∧
      (first.get "dataset_name" = none ∨ first.get "dataset_name" = some "" →
        s1 = "Unknown Dataset") ∧
      (∀ v, first.get "dataset_name" = some v → v ≠ "" → s1 = v) ∧
      (first.get "sampleID" = none ∨ first.get "sampleID" = some "" → s2 = "Unknown Sample") ∧
      (∀ v, first.get "sampleID" = some v → v ≠ "" → s2 = v) ∧
      (first.get "country" = none ∨ first.get "country" = some "" → s3 = "Unknown Country") ∧
      (∀ v, first.get "country" = some v → v ≠ "" → s3 = v) ∧
      ((∀ r ∈ labelRecords, r.get "dataset_name" = some "B" →
          (r.get "sampleID" = none ∨ r.get "sampleID" = some "")) → s2 = "Unknown Sample")) ∧
    labels labelRecords
      = ["A | Unknown Sample | US", "B | Unknown Sample | Unknown Country"] :=
  ⟨by decide, labels_segments labelRecords 1 (some "B") (by decide), by decide⟩

/-! ## The tooltip -/

/-- C5, the code at the failing input: over the group of index `1` (dataset
`B`) the handler shows the metadata of `filteredData[1]`, the second record of
dataset `A`, and not those of the first record of `B`. -/
theorem mouseoverTooltip_not_representative :
    (uniqueDatasets tooltipRecords)[1]? = some (some "B") ∧
    mouseoverTooltip (filteredData tooltipRecords) 1
      = Except.ok ⟨some "skin", some "acne", some "40", some "m"⟩ ∧
    (representativeRecord tooltipRecords 1).map Tooltip.ofRecord
      = some ⟨some "oral", some "caries", some "50", some "f"⟩ ∧
    (∀ rep : Record, representativeRecord tooltipRecords 1 = some rep →
      mouseoverTooltip (filteredData tooltipRecords) 1 ≠ Except.ok (Tooltip.ofRecord rep)) := by
  refine ⟨by decide, by rfl, by decide, ?_⟩
  intro rep hrep heq
  have hshown : mouseoverTooltip (filteredData tooltipRecords) 1
      = Except.ok ⟨some "skin", some "acne", some "40", some "m"⟩ := by rfl
  have hmap : (representativeRecord tooltipRecords 1).map Tooltip.ofRecord
      = some ⟨some "oral", some "caries", some "50", some "f"⟩ := by decide
  rw [hrep, Option.map_some', Option.some.injEq] at hmap
  rw [hshown, hmap] at heq
  exact absurd (Except.ok.inj heq) (by decide)

/-! ## The empty record sequence -/

/-- C6, the code at the failing input: on the empty record sequence the callback
throws at `Object.keys(filteredData[0])`, before `buildMatrix` and
`updateVisualization` are called. -/
theorem pipeline_nil_throws :
    uniqueDatasets [] = [] ∧ filteredData [] = [] ∧
    pipeline [] = Except.error "TypeError: Cannot convert undefined or null to object" :=
  ⟨by decide, by decide, by rfl⟩

/-! ## The highlight -/

/-- C8. For every list of ribbons with any opacities and every group index,
the `mouseover` handler keeps the ribbons, gives opacity `1` to every ribbon
with an end at the index and `0.1` to every other one; and the `mouseout`
handler keeps the ribbons and gives opacity `1` to every one, after a
`mouseover` as from any other state. -/
theorem highlight_exclusivity (index : ℕ) (chords : List ChordPath) :
    (mouseoverRibbons index chords).map (fun p => p.datum) = chords.map (fun p => p.datum) ∧
    (∀ p ∈ mouseoverRibbons index chords,
      (p.datum.source = index ∨ p.datum.target = index → p.opacity = 1) ∧
      (p.datum.source ≠ index ∧ p.datum.target ≠ index → p.opacity = 1 / 10)) ∧
    (mouseoutRibbons chords).map (fun p => p.datum) = chords.map (fun p => p.datum) ∧
    (∀ p ∈ mouseoutRibbons chords, p.opacity = 1) ∧
    (∀ p ∈ mouseoutRibbons (mouseoverRibbons index chords), p.opacity = 1) := by
  have hout : ∀ cs : List ChordPath, ∀ p ∈ mouseoutRibbons cs, p.opacity = 1 := by
    intro cs p hp
    simp only [mouseoutRibbons, List.mem_map] at hp
    obtain ⟨_, _, rfl⟩ := hp
    rfl
  refine ⟨?_, ?_, ?_, hout chords, hout _⟩
  · simp only [mouseoverRibbons, List.map_map]
    refine List.map_congr_left (fun p _ => ?_)
    simp only [Function.comp]
    split <;> rfl
  · intro p hp
    simp only [mouseoverRibbons, List.map_map, List.mem_map, Function.comp] at hp
    obtain ⟨q, _, rfl⟩ := hp
    by_cases h : q.datum.source = index ∨ q.datum.target = index
    · rw [if_pos h]
      refine ⟨fun _ => rfl, fun h2 => ?_⟩
      rcases h with h | h
      · exact absurd h h2.1
      · exact absurd h h2.2
    · rw [if_neg h]
      exact ⟨fun h2 => absurd h2 h, fun _ => rfl⟩
  · simp [mouseoutRibbons, List.map_map, Function.comp]

/-- Witness of C8: three ribbons under the `mouseover` of group `1`, then under
`mouseout`. -/
theorem highlight_exclusivity_witness :
    ((mouseoverRibbons 1 exampleChords).map (fun p => p.datum)
        = exampleChords.map (fun p => p.datum) ∧
    (∀ p ∈ mouseoverRibbons 1 exampleChords,
      (p.datum.source = 1 ∨ p.datum.target = 1 → p.opacity = 1) ∧
      (p.datum.source ≠ 1 ∧ p.datum.target ≠ 1 → p.opacity = 1 / 10)) ∧
    (mouseoutRibbons exampleChords).map (fun p => p.datum)
        = exampleChords.map (fun p => p.datum) ∧
    (∀ p ∈ mouseoutRibbons exampleChords, p.opacity = 1) ∧
    (∀ p ∈ mouseoutRibbons (mouseoverRibbons 1 exampleChords), p.opacity = 1)) ∧
    mouseoverRibbons 1 exampleChords = [⟨⟨0, 1⟩, 1⟩, ⟨⟨2, 2⟩, 1 / 10⟩, ⟨⟨1, 1⟩, 1⟩] ∧
    mouseoutRibbons (mouseoverRibbons 1 exampleChords)
      = [⟨⟨0, 1⟩, 1⟩, ⟨⟨2, 2⟩, 1⟩, ⟨⟨1, 1⟩, 1⟩] :=
  ⟨highlight_exclusivity 1 exampleChords, by decide!, by decide!⟩

end MetaGenChord
